import Mathlib

/-!
Verification of the orchestration and resolution layer of the snips-nlu-rs
inference engine (`snips-nlu-lib/src/nlu_engine.rs`).

The embedding mirrors the source module. External collaborators (the intent
parsers, the builtin and custom entity extractors, and the builtin-kind
identifier resolution of the ontology crate) are opaque in the source —
trait objects and external crates — and are therefore modelled as function
parameters: the builtin entity kind type `κ` and the builtin typed value
type `β` are type parameters, and the extractors are function-valued fields
of `SharedResources`, exactly as the engine only ever uses them through
their call contracts. Machine integers (character offsets, counts) are
modelled as `Nat`; all offset arithmetic in the source is far from overflow
and purely additive. Fallible operations return `Except NluError`.
-/

namespace SnipsNlu

/-- A half-open character range `[start, stop)`, the embedding of Rust's
`Range<usize>` as used for character (not byte) offsets. `stop` stands for
the Rust field `end`, which is a Lean keyword. -/
structure CharRange where
  start : Nat
  stop : Nat
deriving DecidableEq

/-- Error kinds of the engine layer. Errors produced by external
collaborators are carried by `external`; `modelLoad` and
`cannotResolveSlots` embed the `with_context` wrappings of the source. -/
inductive NluError where
  | wrongModelVersion (found expected : String)
  | modelLoad (path : String) (inner : NluError)
  | invalidModelFile (path : String)
  | cannotFindIntent (intent_name : String)
  | unknownIntent (intent_name : String)
  | unknownSlot (slot_name : String)
  | unknownEntityIdentifier (entity_name : String)
  | cannotResolveSlots (inner : NluError)
  | external (message : String)
deriving DecidableEq

/-- Custom entity definition (`models::Entity`). -/
structure Entity where
  automatically_extensible : Bool
deriving DecidableEq

/-- Dataset metadata (`models::DatasetMetadata`). The source's hash maps are
embedded as association lists queried with `List.lookup` (first matching
key); a deserialized map has distinct keys, so lookup agrees with the map. -/
structure DatasetMetadata where
  language_code : String
  slot_name_mappings : List (String × List (String × String))
  entities : List (String × Entity)
deriving DecidableEq

/-- A custom entity match returned by the custom entity extractor
(`entity_parser::custom_entity_parser::CustomEntity`). -/
structure CustomEntity where
  value : String
  resolved_value : String
  range : CharRange
  entity_identifier : String
deriving DecidableEq

/-- The resolved slot value: either an opaque custom string value or a
builtin typed value, whose payload type `β` is opaque to this layer. -/
inductive SlotValue (β : Type) where
  | custom (value : String)
  | builtin (value : β)
deriving DecidableEq

/-- A builtin entity match returned by the builtin entity extractor. `κ` is
the opaque builtin entity kind type, `β` the typed-value payload. -/
structure BuiltinEntity (κ β : Type) where
  value : String
  range : CharRange
  entity : SlotValue β
  entity_kind : κ
deriving DecidableEq

/-- The final resolved slot (`snips_nlu_ontology::Slot`). -/
structure Slot (β : Type) where
  raw_value : String
  value : SlotValue β
  range : Option CharRange
  entity : String
  slot_name : String
deriving DecidableEq

/-- An unresolved slot produced by an intent parser (`slot_utils`'s internal
slot): a slot name, the entity it references and the matched character
range; it carries no resolved value yet. -/
structure InternalSlot where
  entity : String
  slot_name : String
  char_range : CharRange
deriving DecidableEq

/-- The intent classification part of a parser match. The source also
carries a float confidence score, opaque to and unread by this layer, which
the embedding elides. -/
structure IntentClassifierResult where
  intent_name : String
deriving DecidableEq

/-- A successful internal parsing result: the matched intent paired with its
unresolved slots. -/
structure InternalParsingResult where
  intent : IntentClassifierResult
  slots : List InternalSlot
deriving DecidableEq

/-- The final result of `parse` (`snips_nlu_ontology::IntentParserResult`). -/
structure IntentParserResult (β : Type) where
  input : String
  intent : Option IntentClassifierResult
  slots : Option (List (Slot β))
deriving DecidableEq

/-- An intent parser, modelled by its call contract: given the input text
and the optional intent allow-list, it fails, declines (`none`) or matches.
The source converts the allow-list to a hash set before the cascade; only
membership is ever consumed, so the embedding passes the list itself. -/
def IntentParser : Type := String → Option (List String) → Except NluError (Option InternalParsingResult)

/-- The shared resources: the two entity extractors, modelled by their
extraction contracts (text and optional scope in, matches out; the builtin
extractor additionally takes the source's caching flag). -/
structure SharedResources (κ β : Type) where
  builtinEntityParser : String → Option (List κ) → Bool → Except NluError (List (BuiltinEntity κ β))
  customEntityParser : String → Option (List String) → Except NluError (List CustomEntity)

/-- The engine (`SnipsNluEngine`): dataset metadata, the ordered parser
cascade and the shared resources. -/
structure SnipsNluEngine (κ β : Type) where
  dataset_metadata : DatasetMetadata
  intent_parsers : List IntentParser
  shared_resources : SharedResources κ β

/-- The version descriptor read by `check_model_version`. -/
structure ModelVersion where
  model_version : String
deriving DecidableEq

/-- Modelled from the spec: `models::NluEngineModel` is not among the
sources under verification; its schema follows spec section 6 —
`{ model_version, dataset_metadata, intent_parsers: [parser_id, …],
builtin_entity_parser: path, custom_entity_parser: path }`. -/
structure NluEngineModel where
  model_version : String
  dataset_metadata : DatasetMetadata
  intent_parsers : List String
  builtin_entity_parser_path : String
  custom_entity_parser_path : String
deriving DecidableEq

/-- Modelled from the spec: the on-disk `nlu_engine.json` descriptor, read
twice by the source (a version-only deserialization pass in
`check_model_version`, then a full deserialization in `load_model`). The
file is abstracted by what each pass yields: its `model_version` field, and
`full_model = some m` exactly when the rest of the file is well-formed. -/
structure ModelDescriptorFile where
  model_version : String
  full_model : Option NluEngineModel
deriving DecidableEq

/-- `SnipsNluEngine::check_model_version` (nlu_engine.rs lines 52-63): the
version field must equal the compiled-in expected version, else the load
fails with `WrongModelVersion(found, expected)`. The constant
`::MODEL_VERSION` lives outside the module, so it is a parameter. -/
def check_model_version (expected : String) (mv : ModelVersion) : Except NluError Unit :=
  if mv.model_version ≠ expected then
    .error (.wrongModelVersion mv.model_version expected)
  else
    .ok ()

/-- `SnipsNluEngine::load_model` (lines 65-75): check the version of
`<path>/nlu_engine.json` — any failure is wrapped in a `ModelLoad` context
naming the file — then deserialize the full model. -/
def load_model (expected : String) (path : String) (file : ModelDescriptorFile) :
    Except NluError NluEngineModel :=
  match check_model_version expected { model_version := file.model_version } with
  | .error e => .error (.modelLoad (path ++ "/nlu_engine.json") e)
  | .ok _ =>
    match file.full_model with
    | some model => .ok model
    | none => .error (.invalidModelFile (path ++ "/nlu_engine.json"))

/-- `SnipsNluEngine::from_path` (lines 31-50): load the model, then build
the shared resources and instantiate the parsers — language resolution,
resource loading and parser construction are file-system collaborators,
abstracted as the `buildRest` parameter — and assemble the engine. -/
def from_path {κ β : Type} (expected : String) (path : String) (file : ModelDescriptorFile)
    (buildRest : NluEngineModel → Except NluError (List IntentParser × SharedResources κ β)) :
    Except NluError (SnipsNluEngine κ β) := do
  let model ← load_model expected path file
  let (parsers, resources) ← buildRest model
  .ok { dataset_metadata := model.dataset_metadata
        intent_parsers := parsers
        shared_resources := resources }

/-- Order-preserving deduplication keeping the first occurrence of each
element, the contract of itertools' `unique()` used at line 155. `seen`
accumulates the elements already emitted. -/
def uniqueFirstAux {α : Type} [DecidableEq α] (seen : List α) : List α → List α
  | [] => []
  | a :: rest =>
    if a ∈ seen then uniqueFirstAux seen rest
    else a :: uniqueFirstAux (a :: seen) rest

/-- Order-preserving deduplication keeping first occurrences. -/
def uniqueFirst {α : Type} [DecidableEq α] (l : List α) : List α :=
  uniqueFirstAux [] l

/-- The builtin entity scope computed by `parse` (lines 149-156) from a
matched intent's slot-name-to-entity mapping: every mapped entity
identifier that resolves to a builtin kind (`from_identifier`, the
parameter `F`), deduplicated. -/
def builtinEntityScope {κ : Type} [DecidableEq κ] (F : String → Except NluError κ)
    (mapping : List (String × String)) : List κ :=
  uniqueFirst ((mapping.map Prod.snd).filterMap (fun entity_name => (F entity_name).toOption))

/-- The custom entity scope computed by `parse` (lines 158-162): the full
set of custom entity names declared in the dataset metadata. -/
def customEntityScope (metadata : DatasetMetadata) : List String :=
  metadata.entities.map Prod.fst

/-- Modelled from the spec: `nlu_utils::string::substring_with_char_range`
is not among the sources under verification; per spec section 4.4 it yields
"the exact substring of the input spanned by the match's character range",
measured in characters. -/
def substring_with_char_range (s : String) (range : CharRange) : String :=
  String.mk ((s.data.take range.stop).drop range.start)

/-- Modelled from the spec: `slot_utils::resolve_custom_slot` is not among
the sources under verification. Spec section 4.4, custom path: search the
custom extraction results filtered to this entity for a match, whose value
and range become the resolved slot's `raw_value`/`value`/`range`; if none
matched but the entity is `automatically_extensible`, synthesize a slot
whose `raw_value` and `value` equal the entire input text and whose range
spans the whole text in characters; otherwise drop the slot. The "match" is
taken to be the first extraction result carrying this slot's entity, and
the input text — which the spec's whole-text fallback requires — is passed
explicitly. The custom-parser handle passed by the source is not consulted
in the spec's description of resolution, so it is not a parameter here. -/
def resolve_custom_slot {β : Type} (text : String) (slot : InternalSlot) (entity : Entity)
    (custom_entities : List CustomEntity) : Except NluError (Option (Slot β)) :=
  match custom_entities.find? (fun ce => ce.entity_identifier == slot.entity) with
  | some ce =>
    .ok (some { raw_value := ce.value
                value := .custom ce.resolved_value
                range := some ce.range
                entity := slot.entity
                slot_name := slot.slot_name })
  | none =>
    if entity.automatically_extensible then
      .ok (some { raw_value := text
                  value := .custom text
                  range := some { start := 0, stop := text.length }
                  entity := slot.entity
                  slot_name := slot.slot_name })
    else
      .ok none

/-- Modelled from the spec: `slot_utils::resolve_builtin_slot` is not among
the sources under verification. Spec section 4.4, builtin path: resolve the
entity name to a builtin kind (`F`, which may fail with an unknown-entity
error that propagates), search the builtin extraction results for one
instance of that kind, and if found set `raw_value` to the exact substring
spanned by the match's character range, `value` to the typed value and
`range` to absent; else drop the slot. -/
def resolve_builtin_slot {κ β : Type} [DecidableEq κ] (F : String → Except NluError κ)
    (text : String) (slot : InternalSlot) (builtin_entities : List (BuiltinEntity κ β)) :
    Except NluError (Option (Slot β)) := do
  let kind ← F slot.entity
  .ok ((builtin_entities.find? (fun be => be.entity_kind == kind)).map
    (fun be =>
      { raw_value := substring_with_char_range text be.range
        value := be.entity
        range := none
        entity := slot.entity
        slot_name := slot.slot_name }))

/-- The per-slot branch of `resolve_slots` (lines 199-210): a slot whose
entity name is a key of the metadata's custom entities is resolved on the
custom path, any other on the builtin path. -/
def resolveOneSlot {κ β : Type} [DecidableEq κ] (F : String → Except NluError κ)
    (engine : SnipsNluEngine κ β) (text : String)
    (builtin_entities : List (BuiltinEntity κ β)) (custom_entities : List CustomEntity)
    (slot : InternalSlot) : Except NluError (Option (Slot β)) :=
  match engine.dataset_metadata.entities.lookup slot.entity with
  | some entity => resolve_custom_slot text slot entity custom_entities
  | none => resolve_builtin_slot F text slot builtin_entities

/-- The accumulation loop of `resolve_slots` (lines 197-215): resolve each
slot in order, push the resolved ones, propagate any failure. -/
def resolveSlotsLoop {β : Type} (resolveOne : InternalSlot → Except NluError (Option (Slot β))) :
    List InternalSlot → Except NluError (List (Slot β))
  | [] => .ok []
  | slot :: rest => do
    let opt_resolved_slot ← resolveOne slot
    let tail ← resolveSlotsLoop resolveOne rest
    match opt_resolved_slot with
    | some resolved_slot => .ok (resolved_slot :: tail)
    | none => .ok tail

/-- `SnipsNluEngine::resolve_slots` (lines 185-216): run both extractors
once over the whole text with the given scopes, then resolve each
unresolved slot against the shared extraction results. -/
def SnipsNluEngine.resolve_slots {κ β : Type} [DecidableEq κ] (F : String → Except NluError κ)
    (engine : SnipsNluEngine κ β) (text : String) (slots : List InternalSlot)
    (builtin_entity_filter : Option (List κ)) (custom_entity_filter : Option (List String)) :
    Except NluError (List (Slot β)) := do
  let builtin_entities ← engine.shared_resources.builtinEntityParser text builtin_entity_filter false
  let custom_entities ← engine.shared_resources.customEntityParser text custom_entity_filter
  resolveSlotsLoop (resolveOneSlot F engine text builtin_entities custom_entities) slots

/-- The match-handling tail of `parse` (lines 148-175): look up the matched
intent's slot mapping — absence is a hard error — derive both entity
scopes, resolve the slots (failures wrapped with the cannot-resolve-slots
context) and assemble the final result. -/
def handleParsingResult {κ β : Type} [DecidableEq κ] (F : String → Except NluError κ)
    (engine : SnipsNluEngine κ β) (input : String)
    (internal_parsing_result : InternalParsingResult) :
    Except NluError (IntentParserResult β) :=
  let intent := internal_parsing_result.intent
  match engine.dataset_metadata.slot_name_mappings.lookup intent.intent_name with
  | none => .error (.cannotFindIntent intent.intent_name)
  | some mapping =>
    let builtin_entity_scope := builtinEntityScope F mapping
    let custom_entity_scope := customEntityScope engine.dataset_metadata
    match engine.resolve_slots F input internal_parsing_result.slots
        (some builtin_entity_scope) (some custom_entity_scope) with
    | .error e => .error (.cannotResolveSlots e)
    | .ok resolved_slots =>
      .ok { input := input
            intent := some intent
            slots := some resolved_slots }

/-- The parser cascade of `parse` (lines 145-182): invoke each parser in
order; a parser failure propagates; the first match is handled and
terminates the cascade; if every parser declines, nothing matched. -/
def parseLoop {κ β : Type} [DecidableEq κ] (F : String → Except NluError κ)
    (engine : SnipsNluEngine κ β) (input : String) (set_intents : Option (List String)) :
    List IntentParser → Except NluError (IntentParserResult β)
  | [] => .ok { input := input, intent := none, slots := none }
  | parser :: rest =>
    match parser input set_intents with
    | .error e => .error e
    | .ok none => parseLoop F engine input set_intents rest
    | .ok (some internal_parsing_result) =>
      handleParsingResult F engine input internal_parsing_result

/-- `SnipsNluEngine::parse` (lines 130-183). -/
def SnipsNluEngine.parse {κ β : Type} [DecidableEq κ] (F : String → Except NluError κ)
    (engine : SnipsNluEngine κ β) (input : String) (intents_filter : Option (List String)) :
    Except NluError (IntentParserResult β) :=
  if engine.intent_parsers.isEmpty then
    .ok { input := input, intent := none, slots := none }
  else
    parseLoop F engine input intents_filter engine.intent_parsers

/-- `extract_custom_slot` (lines 251-279): run the custom extractor scoped
to exactly this entity; `Vec::pop` takes the last match if any; else the
whole-text extensible fallback, whose range is `[0, input.chars().count())`
— `String.length` counts characters, as `chars().count()` does. -/
def extract_custom_slot {β : Type}
    (customEntityParser : String → Option (List String) → Except NluError (List CustomEntity))
    (input : String) (entity_name : String) (slot_name : String) (custom_entity : Entity) :
    Except NluError (Option (Slot β)) := do
  let custom_entities ← customEntityParser input (some [entity_name])
  match custom_entities.getLast? with
  | some matched_entity =>
    .ok (some { raw_value := matched_entity.value
                value := .custom matched_entity.resolved_value
                range := some matched_entity.range
                entity := entity_name
                slot_name := slot_name })
  | none =>
    if custom_entity.automatically_extensible then
      .ok (some { raw_value := input
                  value := .custom input
                  range := some { start := 0, stop := input.length }
                  entity := entity_name
                  slot_name := slot_name })
    else
      .ok none

/-- `extract_builtin_slot` (lines 281-298): resolve the entity name to a
builtin kind (failure propagates), run the builtin extractor scoped to that
one kind, and take the first result if present, else none. -/
def extract_builtin_slot {κ β : Type} (F : String → Except NluError κ)
    (builtinEntityParser : String → Option (List κ) → Bool → Except NluError (List (BuiltinEntity κ β)))
    (input : String) (entity_name : String) (slot_name : String) :
    Except NluError (Option (Slot β)) := do
  let builtin_entity_kind ← F entity_name
  let builtin_entities ← builtinEntityParser input (some [builtin_entity_kind]) false
  .ok (builtin_entities.head?.map
    (fun builtin_entity =>
      { raw_value := substring_with_char_range input builtin_entity.range
        value := builtin_entity.entity
        range := none
        entity := entity_name
        slot_name := slot_name }))

/-- `SnipsNluEngine::extract_slot` (lines 219-248): look up the entity name
for the intent and slot — unknown intent or slot are hard errors — then
branch on whether that entity is declared custom. -/
def SnipsNluEngine.extract_slot {κ β : Type} (F : String → Except NluError κ)
    (engine : SnipsNluEngine κ β) (input : String) (intent_name : String) (slot_name : String) :
    Except NluError (Option (Slot β)) :=
  match engine.dataset_metadata.slot_name_mappings.lookup intent_name with
  | none => .error (.unknownIntent intent_name)
  | some mapping =>
    match mapping.lookup slot_name with
    | none => .error (.unknownSlot slot_name)
    | some entity_name =>
      match engine.dataset_metadata.entities.lookup entity_name with
      | some custom_entity =>
        extract_custom_slot engine.shared_resources.customEntityParser
          input entity_name slot_name custom_entity
      | none =>
        extract_builtin_slot F engine.shared_resources.builtinEntityParser
          input entity_name slot_name

/-! ### General lemmas about the embedding's building blocks -/

theorem except_toOption_eq_some {ε α : Type} (e : Except ε α) (a : α) :
    e.toOption = some a ↔ e = .ok a := by
  cases e <;> simp [Except.toOption]

theorem mem_uniqueFirstAux {α : Type} [DecidableEq α] (a : α) :
    ∀ (l seen : List α), a ∈ uniqueFirstAux seen l ↔ a ∈ l ∧ a ∉ seen := by
  intro l
  induction l with
  | nil => intro seen; simp [uniqueFirstAux]
  | cons b rest ih =>
    intro seen
    by_cases hb : b ∈ seen
    · rw [uniqueFirstAux, if_pos hb, ih]
      constructor
      · rintro ⟨h1, h2⟩
        exact ⟨List.mem_cons_of_mem b h1, h2⟩
      · rintro ⟨h1, h2⟩
        rcases List.mem_cons.mp h1 with h1 | h1
        · subst h1; exact absurd hb h2
        · exact ⟨h1, h2⟩
    · rw [uniqueFirstAux, if_neg hb]
      constructor
      · intro h
        rcases List.mem_cons.mp h with h | h
        · subst h; exact ⟨List.mem_cons_self a rest, hb⟩
        · rcases (ih (b :: seen)).mp h with ⟨h1, h2⟩
          refine ⟨List.mem_cons_of_mem b h1, fun hc => h2 (List.mem_cons_of_mem b hc)⟩
      · rintro ⟨h1, h2⟩
        rcases List.mem_cons.mp h1 with h1 | h1
        · subst h1; exact List.mem_cons_self a _
        · by_cases hab : a = b
          · subst hab; exact List.mem_cons_self a _
          · exact List.mem_cons_of_mem b
              ((ih (b :: seen)).mpr ⟨h1, by simp [hab, h2]⟩)

theorem nodup_uniqueFirstAux {α : Type} [DecidableEq α] :
    ∀ (l seen : List α), (uniqueFirstAux seen l).Nodup := by
  intro l
  induction l with
  | nil => intro seen; simp [uniqueFirstAux]
  | cons b rest ih =>
    intro seen
    by_cases hb : b ∈ seen
    · rw [uniqueFirstAux, if_pos hb]; exact ih seen
    · rw [uniqueFirstAux, if_neg hb]
      refine List.nodup_cons.mpr ⟨fun hc => ?_, ih (b :: seen)⟩
      exact ((mem_uniqueFirstAux b rest (b :: seen)).mp hc).2 (List.mem_cons_self b seen)

theorem mem_builtinEntityScope {κ : Type} [DecidableEq κ] (F : String → Except NluError κ)
    (mapping : List (String × String)) (k : κ) :
    k ∈ builtinEntityScope F mapping ↔ ∃ p ∈ mapping, F p.2 = .ok k := by
  rw [builtinEntityScope, uniqueFirst, mem_uniqueFirstAux]
  simp only [List.mem_filterMap, List.mem_map, List.not_mem_nil, not_false_iff, and_true]
  constructor
  · rintro ⟨e, ⟨⟨p, hp, rfl⟩, he⟩⟩
    exact ⟨p, hp, (except_toOption_eq_some _ _).mp he⟩
  · rintro ⟨p, hp, hF⟩
    exact ⟨p.2, ⟨p, hp, rfl⟩, (except_toOption_eq_some _ _).mpr hF⟩

theorem mem_customEntityScope (metadata : DatasetMetadata) (n : String) :
    n ∈ customEntityScope metadata ↔ ∃ e, (n, e) ∈ metadata.entities := by
  rw [customEntityScope]
  constructor
  · intro h
    rcases List.mem_map.mp h with ⟨p, hp, rfl⟩
    exact ⟨p.2, hp⟩
  · rintro ⟨e, he⟩
    exact List.mem_map.mpr ⟨(n, e), he, rfl⟩

theorem parseLoop_skip {κ β : Type} [DecidableEq κ] (F : String → Except NluError κ)
    (engine : SnipsNluEngine κ β) (input : String) (set_intents : Option (List String)) :
    ∀ (pre rest : List IntentParser), (∀ p ∈ pre, p input set_intents = .ok none) →
      parseLoop F engine input set_intents (pre ++ rest) =
        parseLoop F engine input set_intents rest := by
  intro pre
  induction pre with
  | nil => intro rest _; rfl
  | cons p pre ih =>
    intro rest hpre
    have hp : p input set_intents = .ok none := hpre p (List.mem_cons_self p pre)
    rw [List.cons_append, parseLoop, hp]
    exact ih rest (fun q hq => hpre q (List.mem_cons_of_mem p hq))

theorem handleParsingResult_shape {κ β : Type} [DecidableEq κ] (F : String → Except NluError κ)
    (engine : SnipsNluEngine κ β) (input : String) (ipr : InternalParsingResult)
    (r : IntentParserResult β) (h : handleParsingResult F engine input ipr = .ok r) :
    r.input = input ∧ r.intent = some ipr.intent ∧ ∃ rs, r.slots = some rs := by
  simp only [handleParsingResult] at h
  cases hl : engine.dataset_metadata.slot_name_mappings.lookup ipr.intent.intent_name with
  | none =>
    simp only [hl] at h
    exact Except.noConfusion h
  | some mapping =>
    simp only [hl] at h
    cases hr : engine.resolve_slots F input ipr.slots
        (some (builtinEntityScope F mapping))
        (some (customEntityScope engine.dataset_metadata)) with
    | error e =>
      simp only [hr] at h
      exact Except.noConfusion h
    | ok resolved =>
      simp only [hr] at h
      cases h
      exact ⟨rfl, rfl, resolved, rfl⟩

theorem parseLoop_ok_shape {κ β : Type} [DecidableEq κ] (F : String → Except NluError κ)
    (engine : SnipsNluEngine κ β) (input : String) (set_intents : Option (List String)) :
    ∀ (parsers : List IntentParser) (r : IntentParserResult β),
      parseLoop F engine input set_intents parsers = .ok r →
      r.input = input ∧
        ((r.intent = none ∧ r.slots = none) ∨ (r.intent.isSome ∧ r.slots.isSome)) := by
  intro parsers
  induction parsers with
  | nil =>
    intro r h
    rw [parseLoop] at h
    cases h
    exact ⟨rfl, Or.inl ⟨rfl, rfl⟩⟩
  | cons p rest ih =>
    intro r h
    rw [parseLoop] at h
    cases hp : p input set_intents with
    | error e =>
      rw [hp] at h
      exact Except.noConfusion h
    | ok o =>
      rw [hp] at h
      cases o with
      | none => exact ih r h
      | some ipr =>
        rcases handleParsingResult_shape F engine input ipr r h with ⟨h1, h2, rs, h3⟩
        exact ⟨h1, Or.inr ⟨by simp [h2], by simp [h3]⟩⟩

theorem resolveSlotsLoop_ok {β : Type}
    (resolveOne : InternalSlot → Except NluError (Option (Slot β))) :
    ∀ (slots : List InternalSlot) (res : List (Slot β)),
      resolveSlotsLoop resolveOne slots = .ok res →
      res = slots.filterMap (fun s => ((resolveOne s).toOption).join) ∧
        res.length ≤ slots.length := by
  intro slots
  induction slots with
  | nil =>
    intro res h
    rw [resolveSlotsLoop] at h
    cases h
    exact ⟨rfl, Nat.le_refl 0⟩
  | cons s rest ih =>
    intro res h
    rw [resolveSlotsLoop] at h
    cases hs : resolveOne s with
    | error e => rw [hs] at h; cases h
    | ok opt =>
      rw [hs] at h
      cases ht : resolveSlotsLoop resolveOne rest with
      | error e => rw [ht] at h; simp [Bind.bind, Except.bind] at h
      | ok tail =>
        rw [ht] at h
        rcases ih tail ht with ⟨htail, hlen⟩
        cases opt with
        | some r =>
          simp only [Bind.bind, Except.bind, Except.ok.injEq] at h
          subst h
          refine ⟨?_, ?_⟩
          · rw [List.filterMap_cons, hs]
            simp [Except.toOption, Option.join, htail]
          · simpa using Nat.succ_le_succ hlen
        | none =>
          simp only [Bind.bind, Except.bind, Except.ok.injEq] at h
          subst h
          refine ⟨?_, Nat.le_succ_of_le hlen⟩
          rw [List.filterMap_cons, hs]
          simp [Except.toOption, Option.join, htail]

/-! ### Claim theorems -/

/-- C5: loading a model whose descriptor carries a `model_version` different
from the engine's expected version fails with the `WrongModelVersion` error
kind carrying both the found and the expected version strings — wrapped in
the `ModelLoad` context naming the descriptor file — regardless of whether
the rest of the descriptor is well-formed (`full_model` is unconstrained)
and regardless of the rest of the load (`buildRest` is unconstrained), so no
engine is ever constructed. -/
theorem wrong_model_version_aborts_load {κ β : Type} (expected path : String)
    (file : ModelDescriptorFile)
    (buildRest : NluEngineModel → Except NluError (List IntentParser × SharedResources κ β))
    (h : file.model_version ≠ expected) :
    from_path expected path file buildRest =
      .error (.modelLoad (path ++ "/nlu_engine.json")
        (.wrongModelVersion file.model_version expected)) := by
  rw [from_path, load_model, check_model_version]
  simp only [if_pos h]
  rfl

/-- Witness for C5 at a concrete mismatched version. -/
theorem wrong_model_version_aborts_load_witness :
    from_path (κ := Nat) (β := Nat) "0.19.0" "model" ⟨"0.1.0", none⟩
        (fun _ => .error (.external "unused")) =
      .error (.modelLoad "model/nlu_engine.json" (.wrongModelVersion "0.1.0" "0.19.0")) :=
  wrong_model_version_aborts_load "0.19.0" "model" ⟨"0.1.0", none⟩
    (fun _ => .error (.external "unused")) (by decide)

/-- C6: `parse` on an engine whose parser list is empty returns successfully
with the input echoed and intent and slots both absent, for every input and
allow-list and independently of the shared resources (no extraction is
consulted: the result is fixed before any collaborator is touched). -/
theorem parse_empty_parsers {κ β : Type} [DecidableEq κ] (F : String → Except NluError κ)
    (engine : SnipsNluEngine κ β) (input : String) (intents_filter : Option (List String))
    (h : engine.intent_parsers = []) :
    engine.parse F input intents_filter =
      .ok { input := input, intent := none, slots := none } := by
  rw [SnipsNluEngine.parse, h]
  rfl

/-- Witness for C6 on a concrete empty-cascade engine. -/
theorem parse_empty_parsers_witness :
    SnipsNluEngine.parse (κ := Nat) (β := Nat) (fun n => .error (.unknownEntityIdentifier n))
        { dataset_metadata := ⟨"en", [], []⟩
          intent_parsers := []
          shared_resources := ⟨fun _ _ _ => .ok [], fun _ _ => .ok []⟩ }
        "hello world" (some ["MakeCoffee"]) =
      .ok { input := "hello world", intent := none, slots := none } :=
  parse_empty_parsers (fun n => .error (.unknownEntityIdentifier n)) _ "hello world"
    (some ["MakeCoffee"]) rfl

/-- C2: a custom slot whose entity is `automatically_extensible`, when the
custom extraction over the input scoped to that entity yields no match,
resolves to a slot whose `raw_value` and `value` both equal the entire input
text and whose range is `[0, character count of the input)`. -/
theorem extract_custom_slot_extensible_whole_text {β : Type}
    (customEntityParser : String → Option (List String) → Except NluError (List CustomEntity))
    (input entity_name slot_name : String) (custom_entity : Entity)
    (hmiss : customEntityParser input (some [entity_name]) = .ok [])
    (hext : custom_entity.automatically_extensible = true) :
    extract_custom_slot (β := β) customEntityParser input entity_name slot_name custom_entity =
      .ok (some { raw_value := input
                  value := .custom input
                  range := some { start := 0, stop := input.length }
                  entity := entity_name
                  slot_name := slot_name }) := by
  rw [extract_custom_slot]
  simp [hmiss, hext, Bind.bind, Except.bind, List.getLast?]

/-- Witness for C2: input "hello world" yields the whole text with range
`[0, 11)`. -/
theorem extract_custom_slot_extensible_whole_text_witness :
    extract_custom_slot (β := Nat) (fun _ _ => .ok []) "hello world" "entity" "slot" ⟨true⟩ =
      .ok (some { raw_value := "hello world"
                  value := .custom "hello world"
                  range := some { start := 0, stop := 11 }
                  entity := "entity"
                  slot_name := "slot" }) := by
  have h := extract_custom_slot_extensible_whole_text (β := Nat) (fun _ _ => .ok [])
    "hello world" "entity" "slot" ⟨true⟩ rfl rfl
  simpa using h

/-- C1: the cascade is first-match-wins. With the parser list split as
`pre ++ m :: post` where every parser of `pre` declines and `m` matches
`res`, `parse` equals `handleParsingResult` applied to `res` — a value
independent of `post` (later parsers are never consulted) and of `pre`, and
which by definition performs the one slot resolution on `res`'s slots; and
if every parser of the cascade declines, `parse` is the nothing-matched
result. -/
theorem parse_cascade_first_match {κ β : Type} [DecidableEq κ]
    (F : String → Except NluError κ) (engine : SnipsNluEngine κ β) (input : String)
    (intents_filter : Option (List String)) (pre : List IntentParser) (m : IntentParser)
    (post : List IntentParser) (res : InternalParsingResult)
    (hps : engine.intent_parsers = pre ++ m :: post)
    (hpre : ∀ p ∈ pre, p input intents_filter = .ok none) :
    (m input intents_filter = .ok (some res) →
      engine.parse F input intents_filter = handleParsingResult F engine input res)
    ∧ ((∀ p ∈ engine.intent_parsers, p input intents_filter = .ok none) →
      engine.parse F input intents_filter =
        .ok { input := input, intent := none, slots := none }) := by
  constructor
  · intro hm
    rw [SnipsNluEngine.parse, hps, if_neg (by simp)]
    rw [parseLoop_skip F engine input intents_filter pre (m :: post) hpre, parseLoop, hm]
  · intro hall
    rw [SnipsNluEngine.parse]
    by_cases hemp : engine.intent_parsers.isEmpty
    · rw [if_pos hemp]
    · rw [if_neg hemp]
      have h2 := parseLoop_skip F engine input intents_filter engine.intent_parsers [] hall
      rw [List.append_nil] at h2
      rw [h2, parseLoop]

/-- A parser that always declines, for concrete cascade runs. -/
def declineEverything : IntentParser := fun _ _ => .ok none

/-- A concrete match result: intent MakeCoffee, no slots. -/
def makeCoffeeResult : InternalParsingResult := { intent := { intent_name := "MakeCoffee" }, slots := [] }

/-- A parser that always matches `makeCoffeeResult`. -/
def matchMakeCoffee : IntentParser := fun _ _ => .ok (some makeCoffeeResult)

/-- A parser that always fails; a cascade that never reaches it never
surfaces this error. -/
def poisonedIntentSource : IntentParser := fun _ _ => .error (.external "must not be invoked")

/-- A concrete three-parser engine: decline, then match, then poison. -/
def cascadeEngine : SnipsNluEngine Nat Nat :=
  { dataset_metadata := { language_code := "en", slot_name_mappings := [("MakeCoffee", [])], entities := [] }
    intent_parsers := [declineEverything, matchMakeCoffee, poisonedIntentSource]
    shared_resources := { builtinEntityParser := fun _ _ _ => .ok [], customEntityParser := fun _ _ => .ok [] } }

/-- Witness for C1 on the concrete cascade: the second parser's match is
returned, resolved once, and the poisoned third parser is never reached. -/
theorem parse_cascade_first_match_witness :
    cascadeEngine.parse (fun n => .error (.unknownEntityIdentifier n)) "make me a coffee" none =
        handleParsingResult (fun n => .error (.unknownEntityIdentifier n)) cascadeEngine
          "make me a coffee" makeCoffeeResult ∧
      cascadeEngine.parse (fun n => .error (.unknownEntityIdentifier n)) "make me a coffee" none =
        .ok { input := "make me a coffee", intent := some { intent_name := "MakeCoffee" }, slots := some [] } := by
  have h := (parse_cascade_first_match (fun n => .error (.unknownEntityIdentifier n))
    cascadeEngine "make me a coffee" none [declineEverything] matchMakeCoffee
    [poisonedIntentSource] makeCoffeeResult rfl
    (by intro p hp; rw [List.mem_singleton] at hp; subst hp; rfl)).1 rfl
  exact ⟨h, h.trans rfl⟩

/-- C7: every successful `parse` echoes the input verbatim, and intent and
slots are jointly populated: both absent or both present. -/
theorem parse_result_jointly_populated {κ β : Type} [DecidableEq κ]
    (F : String → Except NluError κ) (engine : SnipsNluEngine κ β) (input : String)
    (intents_filter : Option (List String)) (r : IntentParserResult β)
    (h : engine.parse F input intents_filter = .ok r) :
    r.input = input ∧
      ((r.intent = none ∧ r.slots = none) ∨ (r.intent.isSome ∧ r.slots.isSome)) := by
  rw [SnipsNluEngine.parse] at h
  by_cases hemp : engine.intent_parsers.isEmpty
  · rw [if_pos hemp] at h
    cases h
    exact ⟨rfl, Or.inl ⟨rfl, rfl⟩⟩
  · rw [if_neg hemp] at h
    exact parseLoop_ok_shape F engine input intents_filter engine.intent_parsers r h

/-- Witness for C7 on the concrete cascade's matched result. -/
theorem parse_result_jointly_populated_witness :
    ({ input := "make me a coffee", intent := some { intent_name := "MakeCoffee" }, slots := some [] }
        : IntentParserResult Nat).input = "make me a coffee" ∧
      ((({ input := "make me a coffee", intent := some { intent_name := "MakeCoffee" }, slots := some [] }
          : IntentParserResult Nat).intent = none ∧
        ({ input := "make me a coffee", intent := some { intent_name := "MakeCoffee" }, slots := some [] }
          : IntentParserResult Nat).slots = none) ∨
       (({ input := "make me a coffee", intent := some { intent_name := "MakeCoffee" }, slots := some [] }
          : IntentParserResult Nat).intent.isSome ∧
        ({ input := "make me a coffee", intent := some { intent_name := "MakeCoffee" }, slots := some [] }
          : IntentParserResult Nat).slots.isSome)) :=
  parse_result_jointly_populated (fun n => .error (.unknownEntityIdentifier n)) cascadeEngine
    "make me a coffee" none _ rfl

/-- C3: in direct slot extraction, the custom path builds the slot from the
*last* custom extraction result (`Vec::pop`), the builtin path from the
*first* builtin extraction result (`first()`), and an empty builtin result
list yields `none` rather than an error. -/
theorem extract_slot_tie_breaks {κ β : Type} (F : String → Except NluError κ)
    (cp : String → Option (List String) → Except NluError (List CustomEntity))
    (bp : String → Option (List κ) → Bool → Except NluError (List (BuiltinEntity κ β)))
    (input entity_name builtin_name slot_name : String) (custom_entity : Entity)
    (l : List CustomEntity) (matched : CustomEntity) (kind : κ) (lb : List (BuiltinEntity κ β))
    (hc : cp input (some [entity_name]) = .ok l)
    (hlast : l.getLast? = some matched)
    (hF : F builtin_name = .ok kind)
    (hb : bp input (some [kind]) false = .ok lb) :
    extract_custom_slot (β := β) cp input entity_name slot_name custom_entity =
      .ok (some { raw_value := matched.value
                  value := .custom matched.resolved_value
                  range := some matched.range
                  entity := entity_name
                  slot_name := slot_name })
    ∧ extract_builtin_slot F bp input builtin_name slot_name =
      .ok (lb.head?.map (fun builtin_entity =>
        { raw_value := substring_with_char_range input builtin_entity.range
          value := builtin_entity.entity
          range := none
          entity := builtin_name
          slot_name := slot_name }))
    ∧ (lb = [] → extract_builtin_slot F bp input builtin_name slot_name = .ok none) := by
  refine ⟨?_, ?_, ?_⟩
  · rw [extract_custom_slot]
    simp [hc, hlast, Bind.bind, Except.bind]
  · rw [extract_builtin_slot]
    simp [hF, hb, Bind.bind, Except.bind]
  · intro hnil
    subst hnil
    rw [extract_builtin_slot]
    simp [hF, hb, Bind.bind, Except.bind]

/-- The two overlapping custom matches of the repository's tagged-slot test:
"a b" at `[6, 9)` and "b c d" at `[8, 13)`. -/
def overlappingMatches : List CustomEntity :=
  [ { value := "a b", resolved_value := "value1", range := { start := 6, stop := 9 }, entity_identifier := "entity" }
  , { value := "b c d", resolved_value := "value2", range := { start := 8, stop := 13 }, entity_identifier := "entity" } ]

/-- Two concrete builtin number matches: "two" at `[8, 11)` and "three". -/
def numberMatches : List (BuiltinEntity Nat Nat) :=
  [ { value := "two", range := { start := 8, stop := 11 }, entity := .builtin 2, entity_kind := 0 }
  , { value := "three", range := { start := 20, stop := 25 }, entity := .builtin 3, entity_kind := 0 } ]

/-- Witness for C3: the custom path takes "b c d"/"value2" at `[8, 13)` (the
last match), the builtin path takes "two" (the first match), and an empty
builtin extraction yields `none`. -/
theorem extract_slot_tie_breaks_witness :
    extract_custom_slot (β := Nat) (fun _ _ => .ok overlappingMatches) "hello a b c d world"
        "entity" "slot" ⟨true⟩ =
      .ok (some { raw_value := "b c d"
                  value := .custom "value2"
                  range := some { start := 8, stop := 13 }
                  entity := "entity"
                  slot_name := "slot" })
    ∧ extract_builtin_slot (fun _ => .ok 0) (fun _ _ _ => .ok numberMatches)
        "Make me two cups of coffee please" "snips/number" "number_of_cups" =
      .ok (some { raw_value := "two"
                  value := .builtin 2
                  range := none
                  entity := "snips/number"
                  slot_name := "number_of_cups" })
    ∧ extract_builtin_slot (κ := Nat) (β := Nat) (fun _ => .ok 0) (fun _ _ _ => .ok [])
        "Make me two cups of coffee please" "snips/number" "number_of_cups" = .ok none := by
  have h1 := extract_slot_tie_breaks (fun _ => .ok 0) (fun _ _ => .ok overlappingMatches)
    (fun _ _ _ => .ok numberMatches) "hello a b c d world" "entity" "snips/number" "slot"
    ⟨true⟩ overlappingMatches (overlappingMatches.get ⟨1, by decide⟩) 0 numberMatches
    rfl rfl rfl rfl
  have h2 := extract_slot_tie_breaks (κ := Nat) (β := Nat) (fun _ => .ok 0)
    (fun _ _ => .ok overlappingMatches) (fun _ _ _ => .ok [])
    "Make me two cups of coffee please" "entity" "snips/number" "number_of_cups"
    ⟨true⟩ overlappingMatches (overlappingMatches.get ⟨1, by decide⟩) 0 []
    rfl rfl rfl rfl
  refine ⟨h1.1.trans rfl, ?_, h2.2.2 rfl⟩
  have hbuiltin := extract_slot_tie_breaks (fun _ => .ok 0) (fun _ _ => .ok overlappingMatches)
    (fun _ _ _ => .ok numberMatches) "Make me two cups of coffee please" "entity"
    "snips/number" "number_of_cups" ⟨true⟩ overlappingMatches
    (overlappingMatches.get ⟨1, by decide⟩) 0 numberMatches rfl rfl rfl rfl
  exact hbuiltin.2.1.trans rfl

/-- C9: a resolving builtin slot's `raw_value` is the exact substring of the
input spanned by the match's character range, its `value` is the extractor's
typed value and its `range` is absent; and every slot produced by custom
extraction carries a present `range`. -/
theorem builtin_slot_shape {κ β : Type} (F : String → Except NluError κ)
    (bp : String → Option (List κ) → Bool → Except NluError (List (BuiltinEntity κ β)))
    (input entity_name slot_name : String) (kind : κ) (builtin_entity : BuiltinEntity κ β)
    (rest : List (BuiltinEntity κ β))
    (hF : F entity_name = .ok kind)
    (hb : bp input (some [kind]) false = .ok (builtin_entity :: rest)) :
    extract_builtin_slot F bp input entity_name slot_name =
      .ok (some { raw_value := substring_with_char_range input builtin_entity.range
                  value := builtin_entity.entity
                  range := none
                  entity := entity_name
                  slot_name := slot_name })
    ∧ ∀ (cp : String → Option (List String) → Except NluError (List CustomEntity))
        (input2 en2 sn2 : String) (ce2 : Entity) (s : Slot β),
        extract_custom_slot cp input2 en2 sn2 ce2 = .ok (some s) → s.range.isSome := by
  constructor
  · rw [extract_builtin_slot]
    simp [hF, hb, Bind.bind, Except.bind]
  · intro cp input2 en2 sn2 ce2 s h
    rw [extract_custom_slot] at h
    cases hcall : cp input2 (some [en2]) with
    | error e =>
      rw [hcall] at h
      exact Except.noConfusion h
    | ok le =>
      rw [hcall] at h
      cases hl : le.getLast? with
      | some matched =>
        simp only [hl, Bind.bind, Except.bind, Except.ok.injEq, Option.some.injEq] at h
        subst h
        rfl
      | none =>
        by_cases hext : ce2.automatically_extensible
        · simp only [hl, hext, if_pos, Bind.bind, Except.bind, Except.ok.injEq,
            Option.some.injEq] at h
          subst h
          rfl
        · simp only [hl, hext, Bind.bind, Except.bind] at h
          simp at h

/-- Witness for C9: the number "two" at `[8, 11)` of the coffee utterance
resolves with `raw_value` "two", the typed value and no range; a concrete
custom extraction's slot carries a present range. -/
theorem builtin_slot_shape_witness :
    extract_builtin_slot (fun _ => .ok 0) (fun _ _ _ => .ok numberMatches)
        "Make me two cups of coffee please" "snips/number" "number_of_cups" =
      .ok (some { raw_value := "two"
                  value := .builtin 2
                  range := none
                  entity := "snips/number"
                  slot_name := "number_of_cups" })
    ∧ ({ raw_value := "a b", value := .custom "value1",
         range := some { start := 6, stop := 9 },
         entity := "entity", slot_name := "slot" } : Slot Nat).range.isSome := by
  have h := builtin_slot_shape (fun _ => .ok 0) (fun _ _ _ => .ok numberMatches)
    "Make me two cups of coffee please" "snips/number" "number_of_cups" 0
    (numberMatches.get ⟨0, by decide⟩) (numberMatches.drop 1) rfl rfl
  refine ⟨h.1.trans rfl, ?_⟩
  exact h.2 (fun _ _ => .ok (overlappingMatches.take 1)) "hello a b" "entity" "slot"
    ⟨false⟩ _ rfl

/-- C4: whatever list of resolved slots `resolve_slots` returns is the
input unresolved-slot list filtered through the per-slot resolver — so there
is at most one resolved slot per unresolved slot, in the original order, and
every slot whose resolution comes back empty is omitted rather than raising
— and in particular no longer than the input list. -/
theorem resolve_slots_order_and_drop {κ β : Type} [DecidableEq κ]
    (F : String → Except NluError κ) (engine : SnipsNluEngine κ β) (text : String)
    (slots : List InternalSlot) (builtin_entity_filter : Option (List κ))
    (custom_entity_filter : Option (List String)) (bes : List (BuiltinEntity κ β))
    (ces : List CustomEntity) (res : List (Slot β))
    (hb : engine.shared_resources.builtinEntityParser text builtin_entity_filter false = .ok bes)
    (hc : engine.shared_resources.customEntityParser text custom_entity_filter = .ok ces)
    (h : engine.resolve_slots F text slots builtin_entity_filter custom_entity_filter = .ok res) :
    res = slots.filterMap (fun s => ((resolveOneSlot F engine text bes ces s).toOption).join)
    ∧ res.length ≤ slots.length := by
  simp only [SnipsNluEngine.resolve_slots, hb, hc, Bind.bind, Except.bind] at h
  exact resolveSlotsLoop_ok (resolveOneSlot F engine text bes ces) slots res h

/-- The custom extraction result of the resolution fixture: "blue" tagged as
the color entity at `[3, 7)`. -/
def colorMatches : List CustomEntity :=
  [{ value := "blue", resolved_value := "Blue", range := { start := 3, stop := 7 }, entity_identifier := "color" }]

/-- A concrete engine for the resolution fixture: three custom entities —
color (matched), size (extensible, unmatched) and shape (non-extensible,
unmatched, hence dropped). -/
def resolutionEngine : SnipsNluEngine Nat Nat :=
  { dataset_metadata :=
      { language_code := "en"
        slot_name_mappings := []
        entities := [("color", ⟨false⟩), ("size", ⟨true⟩), ("shape", ⟨false⟩)] }
    intent_parsers := []
    shared_resources := { builtinEntityParser := fun _ _ _ => .ok [], customEntityParser := fun _ _ => .ok colorMatches } }

/-- The three unresolved slots of the resolution fixture. -/
def resolutionSlots : List InternalSlot :=
  [ { entity := "color", slot_name := "c", char_range := { start := 3, stop := 7 } }
  , { entity := "size", slot_name := "s", char_range := { start := 0, stop := 2 } }
  , { entity := "shape", slot_name := "p", char_range := { start := 8, stop := 13 } } ]

/-- Witness for C4 on the fixture: three unresolved slots come back as two
resolved ones — the shape slot is dropped — in the original order. -/
theorem resolve_slots_order_and_drop_witness :
    [ ({ raw_value := "blue", value := .custom "Blue", range := some { start := 3, stop := 7 }
         , entity := "color", slot_name := "c" } : Slot Nat)
    , { raw_value := "my blue thing", value := .custom "my blue thing"
        , range := some { start := 0, stop := 13 }, entity := "size", slot_name := "s" } ] =
      resolutionSlots.filterMap (fun s =>
        ((resolveOneSlot (fun n => .error (.unknownEntityIdentifier n)) resolutionEngine
          "my blue thing" [] colorMatches s).toOption).join)
    ∧ ([ ({ raw_value := "blue", value := .custom "Blue", range := some { start := 3, stop := 7 }
           , entity := "color", slot_name := "c" } : Slot Nat)
       , { raw_value := "my blue thing", value := .custom "my blue thing"
           , range := some { start := 0, stop := 13 }, entity := "size", slot_name := "s" } ]).length
        ≤ resolutionSlots.length :=
  resolve_slots_order_and_drop (fun n => .error (.unknownEntityIdentifier n)) resolutionEngine
    "my blue thing" resolutionSlots none none [] colorMatches _ rfl rfl rfl

/-- C8: membership in the builtin entity scope is exactly resolvability of
some mapped entity identifier of the intent's slot-name-to-entity mapping
(unresolvable identifiers are skipped), the scope is deduplicated, the
custom entity scope holds exactly the custom entity names declared in the
dataset metadata, and a matched intent missing from the metadata mapping
makes `parse` abort with the cannot-find-intent error. -/
theorem entity_scopes_spec {κ β : Type} [DecidableEq κ]
    (F : String → Except NluError κ) (engine : SnipsNluEngine κ β) (input : String)
    (intents_filter : Option (List String)) (pre : List IntentParser) (m : IntentParser)
    (post : List IntentParser) (res : InternalParsingResult)
    (hps : engine.intent_parsers = pre ++ m :: post)
    (hpre : ∀ p ∈ pre, p input intents_filter = .ok none)
    (hm : m input intents_filter = .ok (some res))
    (hlook : engine.dataset_metadata.slot_name_mappings.lookup res.intent.intent_name = none) :
    (∀ (mapping : List (String × String)) (k : κ),
      k ∈ builtinEntityScope F mapping ↔ ∃ p ∈ mapping, F p.2 = .ok k)
    ∧ (∀ mapping : List (String × String), (builtinEntityScope F mapping).Nodup)
    ∧ (∀ n, n ∈ customEntityScope engine.dataset_metadata ↔
        ∃ e, (n, e) ∈ engine.dataset_metadata.entities)
    ∧ engine.parse F input intents_filter =
        .error (.cannotFindIntent res.intent.intent_name) := by
  refine ⟨fun mapping k => mem_builtinEntityScope F mapping k,
    fun mapping => nodup_uniqueFirstAux _ [],
    fun n => mem_customEntityScope engine.dataset_metadata n, ?_⟩
  rw [SnipsNluEngine.parse, hps, if_neg (by simp)]
  rw [parseLoop_skip F engine input intents_filter pre (m :: post) hpre, parseLoop, hm]
  simp only [handleParsingResult, hlook]

/-- A parser that matches an intent absent from the dataset metadata. -/
def matchGhostIntent : IntentParser := fun _ _ => .ok (some { intent := { intent_name := "Ghost" }, slots := [] })

/-- An engine whose metadata knows one intent and one custom entity, but
whose single parser reports the undeclared intent "Ghost". -/
def ghostEngine : SnipsNluEngine Nat Nat :=
  { dataset_metadata :=
      { language_code := "en"
        slot_name_mappings := [("Brew", [("amount", "snips/number")])]
        entities := [("color", ⟨true⟩)] }
    intent_parsers := [matchGhostIntent]
    shared_resources := { builtinEntityParser := fun _ _ _ => .ok [], customEntityParser := fun _ _ => .ok [] } }

/-- The identifier-resolution fixture: only "snips/number" is a known
builtin identifier, resolving to kind 7. -/
def numberOnly (n : String) : Except NluError Nat :=
  if n == "snips/number" then .ok 7 else .error (.unknownEntityIdentifier n)

/-- Witness for C8 on the fixtures: the scope memberships at concrete
inputs, deduplication of a mapping naming the same identifier twice, and
the hard abort on the undeclared matched intent. -/
theorem entity_scopes_spec_witness :
    (7 ∈ builtinEntityScope numberOnly [("amount", "snips/number")] ↔
      ∃ p ∈ [("amount", "snips/number")], numberOnly p.2 = .ok 7)
    ∧ (builtinEntityScope numberOnly [("amount", "snips/number"), ("count", "snips/number")]).Nodup
    ∧ ("color" ∈ customEntityScope ghostEngine.dataset_metadata ↔
        ∃ e, ("color", e) ∈ ghostEngine.dataset_metadata.entities)
    ∧ ghostEngine.parse numberOnly "brew something" none =
        .error (.cannotFindIntent "Ghost") := by
  have h := entity_scopes_spec numberOnly ghostEngine "brew something" none []
    matchGhostIntent [] { intent := { intent_name := "Ghost" }, slots := [] }
    rfl (by intro p hp; exact absurd hp (List.not_mem_nil p)) rfl rfl
  exact ⟨h.1 [("amount", "snips/number")] 7,
    h.2.1 [("amount", "snips/number"), ("count", "snips/number")],
    h.2.2.1 "color", h.2.2.2⟩

/-- C10: a slot whose entity name is declared among the metadata's custom
entities always takes the custom path, in `extract_slot` as in the per-slot
branch of `resolve_slots` — its outcome equals the custom extraction and is
unchanged under replacing the builtin-identifier resolution, the builtin
extractor and the builtin extraction results, so the builtin identifier
lookup (the only source of an unknown-identifier failure) is never attempted
for such a name, even one that is also a valid builtin identifier. -/
theorem custom_shadows_builtin {κ β : Type} [DecidableEq κ]
    (F1 F2 : String → Except NluError κ) (engine : SnipsNluEngine κ β)
    (bp2 : String → Option (List κ) → Bool → Except NluError (List (BuiltinEntity κ β)))
    (input intent_name slot_name entity_name text : String)
    (mapping : List (String × String)) (ce : Entity)
    (bes1 bes2 : List (BuiltinEntity κ β)) (ces : List CustomEntity) (islot : InternalSlot)
    (hce : engine.dataset_metadata.entities.lookup entity_name = some ce) :
    (engine.dataset_metadata.slot_name_mappings.lookup intent_name = some mapping →
      mapping.lookup slot_name = some entity_name →
      engine.extract_slot F1 input intent_name slot_name =
        extract_custom_slot engine.shared_resources.customEntityParser input
          entity_name slot_name ce
      ∧ engine.extract_slot F1 input intent_name slot_name =
        SnipsNluEngine.extract_slot F2
          { engine with shared_resources :=
              { engine.shared_resources with builtinEntityParser := bp2 } }
          input intent_name slot_name)
    ∧ (islot.entity = entity_name →
      resolveOneSlot F1 engine text bes1 ces islot = resolve_custom_slot text islot ce ces
      ∧ resolveOneSlot F1 engine text bes1 ces islot =
        resolveOneSlot F2
          { engine with shared_resources :=
              { engine.shared_resources with builtinEntityParser := bp2 } }
          text bes2 ces islot) := by
  constructor
  · intro h1 h2
    constructor
    · rw [SnipsNluEngine.extract_slot]
      simp only [h1, h2, hce]
    · rw [SnipsNluEngine.extract_slot, SnipsNluEngine.extract_slot]
      simp only [h1, h2, hce]
  · intro hent
    constructor
    · rw [resolveOneSlot, hent, hce]
    · rw [resolveOneSlot, resolveOneSlot, hent, hce]

/-- An engine declaring the custom entity "snips/number" — a name that is
also a valid builtin identifier — used by one intent's one slot. -/
def shadowEngine : SnipsNluEngine Nat Nat :=
  { dataset_metadata :=
      { language_code := "en"
        slot_name_mappings := [("SetCount", [("count", "snips/number")])]
        entities := [("snips/number", ⟨true⟩)] }
    intent_parsers := []
    shared_resources := { builtinEntityParser := fun _ _ _ => .ok [], customEntityParser := fun _ _ => .ok [] } }

/-- Witness for C10 on the shadow fixture: the declared custom entity named
like the builtin identifier takes the custom path, and swapping in a
poisoned builtin extractor and a failing identifier resolution changes
nothing. -/
theorem custom_shadows_builtin_witness :
    (shadowEngine.extract_slot numberOnly "set it to five" "SetCount" "count" =
      extract_custom_slot shadowEngine.shared_resources.customEntityParser "set it to five"
        "snips/number" "count" ⟨true⟩
    ∧ shadowEngine.extract_slot numberOnly "set it to five" "SetCount" "count" =
      SnipsNluEngine.extract_slot (κ := Nat) (β := Nat) (fun n => .error (.unknownEntityIdentifier n))
        { shadowEngine with shared_resources :=
            { shadowEngine.shared_resources with
                builtinEntityParser := fun _ _ _ => .error (.external "builtin must not run") } }
        "set it to five" "SetCount" "count")
    ∧ (resolveOneSlot numberOnly shadowEngine "set it to five" [] []
          { entity := "snips/number", slot_name := "count", char_range := { start := 0, stop := 4 } } =
        resolve_custom_slot (β := Nat) "set it to five"
          { entity := "snips/number", slot_name := "count", char_range := { start := 0, stop := 4 } }
          ⟨true⟩ []
      ∧ resolveOneSlot numberOnly shadowEngine "set it to five" [] []
          { entity := "snips/number", slot_name := "count", char_range := { start := 0, stop := 4 } } =
        resolveOneSlot (κ := Nat) (β := Nat) (fun n => .error (.unknownEntityIdentifier n))
          { shadowEngine with shared_resources :=
              { shadowEngine.shared_resources with
                  builtinEntityParser := fun _ _ _ => .error (.external "builtin must not run") } }
          "set it to five" [] []
          { entity := "snips/number", slot_name := "count", char_range := { start := 0, stop := 4 } }) := by
  have h := custom_shadows_builtin numberOnly (fun n => .error (.unknownEntityIdentifier n))
    shadowEngine (fun _ _ _ => .error (.external "builtin must not run"))
    "set it to five" "SetCount" "count" "snips/number" "set it to five"
    [("count", "snips/number")] ⟨true⟩ [] [] []
    { entity := "snips/number", slot_name := "count", char_range := { start := 0, stop := 4 } }
    rfl
  exact ⟨h.1 rfl rfl, h.2 rfl⟩

end SnipsNlu
